import Mathlib

/-!
Namespace contexts (`pkg/api/context.go`).

A shallow embedding of the request-context layer of the `api` package and a
verification of its contract.

* `Any` stands for Go's `interface{}`: a dynamic type together with a value.
* `context.Context` stands for the context-propagation primitive the package is
  built on (`golang.org/x/net/context`), which is not part of the package.
* `api.Context` is the package's own one-method interface; its values are the
  values of the primitive plus every other implementation of `Value`.
* A Go panic is the `error` case of `Except`; a function that cannot panic is a
  plain function.
* In `api` a context is, as the package describes it, an immutable lookup
  handle: its `Value` returns for every key.  `api.effect` is the same code over
  contexts whose `Value` is arbitrary code of the caller, which returns or
  panics; it is what the statements about failure paths are made on.

Pointers in the embedding are non-nil: the nil `*ObjectMeta` is not an input of
the model.  A nil `Context` is, in `api.effect`, a context every call on which
panics.
-/

set_option autoImplicit false

/-- A Go `interface{}` value of a comparable dynamic type.  Go's `==` on two
such values is `Any.equals` below. -/
inductive Any where
  /-- The nil interface value, also what a lookup yields for an absent key. -/
  | nil : Any
  /-- A value of dynamic type `string`. -/
  | string (s : String) : Any
  /-- A value of dynamic type `int`. -/
  | int (n : Int) : Any
  /-- A value of the unexported type `key` (`type key int`). -/
  | key (n : Int) : Any
  /-- A value of dynamic type `float64`, given by its IEEE 754 bit pattern
  (read modulo `2 ^ 64`). -/
  | float64 (bits : Nat) : Any
  /-- A value of any other comparable type that has no floating-point part,
  given by the type's name and the value's printed form. -/
  | named (typ : String) (repr : String) : Any
  deriving DecidableEq, Repr

namespace Any

/-- Whether the `float64` with this bit pattern is a NaN: the eleven exponent
bits are all ones and the fraction is not zero. -/
def float64IsNaN (bits : Nat) : Bool :=
  bits % 2 ^ 64 / 2 ^ 52 % 2 ^ 11 == 2047 && bits % 2 ^ 52 != 0

/-- Whether the `float64` with this bit pattern is `+0` or `-0`: every bit but
the sign is zero. -/
def float64IsZero (bits : Nat) : Bool :=
  bits % 2 ^ 63 == 0

/-- Go's `==` on two `float64`: a NaN is equal to nothing, itself included; the
two zeros are equal; any other two are equal when their bit patterns are. -/
def float64Equals (a b : Nat) : Bool :=
  !float64IsNaN a && !float64IsNaN b &&
    (a % 2 ^ 64 == b % 2 ^ 64 || (float64IsZero a && float64IsZero b))

/-- Go's `==` on two interface values: they have the same dynamic type and their
values are equal under that type's `==`. -/
def equals : Any → Any → Bool
  | .float64 a, .float64 b => float64Equals a b
  | a, b => decide (a = b)

/-- The comma-ok type assertion `v.(string)`: the string and `true` when the
dynamic type of `v` is `string`, the zero value `""` and `false` otherwise. -/
def assertString : Any → String × Bool
  | .string s => (s, true)
  | _ => ("", false)

end Any

/-- Go's builtin `len` on a string: its number of bytes. -/
def len (s : String) : Nat := s.utf8ByteSize

namespace context

/-- Modelled from the spec: the external context-propagation primitive
(`golang.org/x/net/context`), "a generic immutable context-propagation primitive
offering `Value(key) -> value-or-absent` and `WithValue(parent, key, value) ->
new-context`, plus a root/empty-context constructor".  A value of the primitive
is the empty root, a value frame on top of a parent, or any other implementation
of the primitive's interface (a cancellation or deadline frame, say), of which
only its lookup function matters here. -/
inductive Context where
  | emptyCtx : Context
  | valueCtx (parent : Context) (key val : Any) : Context
  | custom (lookup : Any → Any) : Context

/-- Modelled from the spec: the primitive's lookup.  A value frame answers for
its own key, compared with Go's `==` (`c.key == key`), and delegates every other
key to its parent, so the frame nearest the lookup point shadows its ancestors;
the root has no value for any key. -/
def Context.Value : Context → Any → Any
  | .emptyCtx, _ => Any.nil
  | .valueCtx parent key val, k => if Any.equals key k then val else parent.Value k
  | .custom lookup, k => lookup k

/-- Modelled from the spec: the primitive's root/empty-context constructor
`context.TODO()`. -/
def TODO : Context := .emptyCtx

/-- Modelled from the spec: the primitive's `WithValue`, a new frame on top of
`parent`, which is left as it is. -/
def WithValue (parent : Context) (key val : Any) : Context :=
  .valueCtx parent key val

end context

namespace api

/-- A value of the interface `Context` (`Value(key interface{}) interface{}`).
Its dynamic type either implements the primitive's interface too (`prim`), or
implements `Value` alone (`foreign`), in which case the assertion
`parent.(context.Context)` fails. -/
inductive Context where
  | prim (c : context.Context) : Context
  | foreign (lookup : Any → Any) : Context

/-- The interface method `ctx.Value(key)`. -/
def Context.Value : Context → Any → Any
  | .prim c, k => c.Value k
  | .foreign lookup, k => lookup k

/-- The comma-ok type assertion `parent.(context.Context)`. -/
def Context.assertContext : Context → Option context.Context
  | .prim c => some c
  | .foreign _ => none

/-- The resource record `ObjectMeta`.  Its declaration is outside this file of
the package; the code here reads and writes the field `Namespace` only, so the
other fields are kept as one component of an arbitrary type `ρ`. -/
structure ObjectMeta (ρ : Type) where
  Namespace : String
  rest : ρ

/-- `const namespaceKey key = 0`, as the interface value handed to lookups. -/
def namespaceKey : Any := Any.key 0

/-- The source function `NewContext`. -/
def NewContext : Context := .prim context.TODO

/-- The source function `WithValue`: panics with "Invalid context type" when
`parent` is not a value of the primitive. -/
def WithValue (parent : Context) (key val : Any) : Except String Context :=
  match parent.assertContext with
  | none => .error "Invalid context type"
  | some internalCtx => .ok (.prim (context.WithValue internalCtx key val))

/-- The source function `WithNamespace`. -/
def WithNamespace (parent : Context) (ns : String) : Except String Context :=
  WithValue parent namespaceKey (Any.string ns)

/-- The source function `NewDefaultContext`.  The constant `NamespaceDefault` is
declared outside this file of the package and is taken as a parameter. -/
def NewDefaultContext (NamespaceDefault : String) : Except String Context :=
  WithNamespace NewContext NamespaceDefault

/-- The source function `NamespaceFrom`. -/
def NamespaceFrom (ctx : Context) : String × Bool :=
  (ctx.Value namespaceKey).assertString

/-- The source function `Namespace`. -/
def Namespace (ctx : Context) : String :=
  (NamespaceFrom ctx).1

/-- The source function `ValidNamespace`.  The resource is passed by pointer and
written in place: the result is the returned boolean and the resource as the
call leaves it. -/
def ValidNamespace {ρ : Type} (ctx : Context) (resource : ObjectMeta ρ) :
    Bool × ObjectMeta ρ :=
  let (ns, ok) := NamespaceFrom ctx
  let resource := if len resource.Namespace == 0 then { resource with Namespace := ns } else resource
  (ns == resource.Namespace && ok, resource)

/-- The source function `WithNamespaceDefaultIfNone`. -/
def WithNamespaceDefaultIfNone (NamespaceDefault : String) (parent : Context) :
    Except String Context :=
  let (ns, ok) := NamespaceFrom parent
  if !ok || len ns == 0 then
    WithNamespace parent NamespaceDefault
  else
    .ok parent

end api

namespace api

/-- The contexts this package's operations produce: `NewContext()`,
`NewDefaultContext()`, and what `WithValue`, `WithNamespace` and
`WithNamespaceDefaultIfNone` return for a produced parent. -/
inductive Produced : Context → Prop where
  | newContext : Produced NewContext
  | newDefaultContext (d : String) (c : Context) :
      NewDefaultContext d = .ok c → Produced c
  | withValue (parent : Context) (key val : Any) (c : Context) :
      Produced parent → WithValue parent key val = .ok c → Produced c
  | withNamespace (parent : Context) (ns : String) (c : Context) :
      Produced parent → WithNamespace parent ns = .ok c → Produced c
  | withNamespaceDefaultIfNone (d : String) (parent c : Context) :
      Produced parent → WithNamespaceDefaultIfNone d parent = .ok c → Produced c

/-- The contexts on which no namespace was ever attached: `NewContext()` and
what `WithValue` returns for such a parent and a key other than the namespace
key. -/
inductive NeverAttached : Context → Prop where
  | newContext : NeverAttached NewContext
  | withValue (parent : Context) (key val : Any) (c : Context) :
      NeverAttached parent → key ≠ namespaceKey → WithValue parent key val = .ok c →
      NeverAttached c

end api

namespace api.effect

/-- A value of the interface `Context` as any caller may hand it in, with the
effect of its method kept.  `Value` is the outcome of the call `ctx.Value(key)`:
the method of a type outside the package is arbitrary code, which returns a
value or panics.  `isContext` tells whether the dynamic type implements the
primitive's interface too, which is what `parent.(context.Context)` tests. -/
structure Context where
  Value : Any → Except String Any
  isContext : Bool

/-- The source function `NewContext`: the primitive's root, `context.TODO()`,
which has no value for any key. -/
def NewContext : Except String Context :=
  .ok ⟨fun _ => .ok Any.nil, true⟩

/-- The source function `WithValue`.  The frame `context.WithValue` returns
answers for a key `==` to its own and hands every other key to `parent`, whose
panic, if any, it lets through. -/
def WithValue (parent : Context) (key val : Any) : Except String Context :=
  if parent.isContext then
    .ok ⟨fun k => if Any.equals key k then .ok val else parent.Value k, true⟩
  else
    .error "Invalid context type"

/-- The source function `WithNamespace`. -/
def WithNamespace (parent : Context) (ns : String) : Except String Context :=
  WithValue parent namespaceKey (Any.string ns)

/-- The source function `NewDefaultContext`, with the constant
`NamespaceDefault` as a parameter. -/
def NewDefaultContext (NamespaceDefault : String) : Except String Context :=
  match NewContext with
  | .error e => .error e
  | .ok ctx => WithNamespace ctx NamespaceDefault

/-- The source function `NamespaceFrom`. -/
def NamespaceFrom (ctx : Context) : Except String (String × Bool) :=
  match ctx.Value namespaceKey with
  | .error e => .error e
  | .ok v => .ok v.assertString

/-- The source function `Namespace`. -/
def Namespace (ctx : Context) : Except String String :=
  match NamespaceFrom ctx with
  | .error e => .error e
  | .ok (ns, _) => .ok ns

/-- The source function `ValidNamespace`. -/
def ValidNamespace {ρ : Type} (ctx : Context) (resource : ObjectMeta ρ) :
    Except String (Bool × ObjectMeta ρ) :=
  match NamespaceFrom ctx with
  | .error e => .error e
  | .ok (ns, ok) =>
    let resource :=
      if len resource.Namespace == 0 then { resource with Namespace := ns } else resource
    .ok (ns == resource.Namespace && ok, resource)

/-- The source function `WithNamespaceDefaultIfNone`. -/
def WithNamespaceDefaultIfNone (NamespaceDefault : String) (parent : Context) :
    Except String Context :=
  match NamespaceFrom parent with
  | .error e => .error e
  | .ok (ns, ok) =>
    if !ok || len ns == 0 then
      WithNamespace parent NamespaceDefault
    else
      .ok parent

end api.effect

namespace api

/-- A context of `api`, whose `Value` returns for every key, as a context of
`api.effect`. -/
def Context.toEffect (c : Context) : effect.Context :=
  ⟨fun k => .ok (c.Value k), c.assertContext.isSome⟩

end api

/-! Auxiliary facts. -/

theorem len_eq_zero_iff (s : String) : len s = 0 ↔ s = "" := by
  cases s with
  | mk cs =>
    show String.utf8ByteSize ⟨cs⟩ = 0 ↔ _
    rw [String.utf8ByteSize_mk, String.utf8Len_eq_zero]
    constructor
    · intro h; rw [h]
    · intro h; exact congrArg String.data h

theorem len_beq_zero (s : String) : (len s == 0) = decide (s = "") := by
  by_cases h : s = ""
  · subst h; rfl
  · have h0 : len s ≠ 0 := fun h1 => h ((len_eq_zero_iff s).1 h1)
    simp [h, h0]

theorem Any.equals_key (a : Any) (n : Int) :
    Any.equals a (Any.key n) = decide (a = Any.key n) := by
  cases a <;> rfl

theorem Any.equals_of_not_float64 (a b : Any) (h : ∀ bits, a ≠ Any.float64 bits) :
    Any.equals a b = decide (a = b) := by
  cases a with
  | float64 x => exact absurd rfl (h x)
  | nil => rfl
  | string s => rfl
  | int n => rfl
  | key n => rfl
  | named t r => rfl

theorem Any.equals_self (a : Any)
    (h : ∀ bits, a = Any.float64 bits → Any.float64IsNaN bits = false) :
    Any.equals a a = true := by
  cases a with
  | float64 x =>
    have hx := h x rfl
    show Any.float64Equals x x = true
    simp [Any.float64Equals, hx]
  | nil => rfl
  | string s => simp [Any.equals]
  | int n => simp [Any.equals]
  | key n => simp [Any.equals]
  | named t r => simp [Any.equals]

namespace api

theorem withValue_prim (g : context.Context) (key val : Any) :
    WithValue (.prim g) key val = .ok (.prim (.valueCtx g key val)) := rfl

theorem withValue_foreign (f : Any → Any) (key val : Any) :
    WithValue (.foreign f) key val = .error "Invalid context type" := rfl

theorem withNamespace_prim (g : context.Context) (ns : String) :
    WithNamespace (.prim g) ns = .ok (.prim (.valueCtx g namespaceKey (Any.string ns))) := rfl

theorem withNamespace_foreign (f : Any → Any) (ns : String) :
    WithNamespace (.foreign f) ns = .error "Invalid context type" := rfl

theorem namespaceFrom_prim_valueCtx_namespaceKey (g : context.Context) (val : Any) :
    NamespaceFrom (.prim (.valueCtx g namespaceKey val)) = val.assertString := by
  simp [NamespaceFrom, Context.Value, context.Context.Value, namespaceKey, Any.equals_key]

theorem namespaceFrom_prim_valueCtx_of_ne (g : context.Context) (key val : Any)
    (h : key ≠ namespaceKey) :
    NamespaceFrom (.prim (.valueCtx g key val)) = NamespaceFrom (.prim g) := by
  have h' : key ≠ Any.key 0 := h
  simp [NamespaceFrom, Context.Value, context.Context.Value, namespaceKey, Any.equals_key, h']

theorem withNamespaceDefaultIfNone_eq (d : String) (parent : Context) :
    WithNamespaceDefaultIfNone d parent =
      if (NamespaceFrom parent).2 = false ∨ (NamespaceFrom parent).1 = "" then
        WithNamespace parent d
      else .ok parent := by
  unfold WithNamespaceDefaultIfNone
  rcases h : NamespaceFrom parent with ⟨ns, ok⟩
  simp only [len_beq_zero]
  cases ok <;> by_cases hn : ns = "" <;> simp [hn]

/-- Every produced context is a value of the primitive. -/
theorem Produced.exists_prim {c : Context} (h : Produced c) : ∃ g, c = .prim g := by
  induction h with
  | newContext => exact ⟨_, rfl⟩
  | newDefaultContext d c hc =>
    rw [NewDefaultContext, NewContext, withNamespace_prim] at hc
    exact ⟨_, (Except.ok.inj hc).symm⟩
  | withValue parent key val c _ hc ih =>
    obtain ⟨g, rfl⟩ := ih
    rw [withValue_prim] at hc
    exact ⟨_, (Except.ok.inj hc).symm⟩
  | withNamespace parent ns c _ hc ih =>
    obtain ⟨g, rfl⟩ := ih
    rw [withNamespace_prim] at hc
    exact ⟨_, (Except.ok.inj hc).symm⟩
  | withNamespaceDefaultIfNone d parent c _ hc ih =>
    obtain ⟨g, rfl⟩ := ih
    rw [withNamespaceDefaultIfNone_eq] at hc
    split at hc
    · rw [withNamespace_prim] at hc
      exact ⟨_, (Except.ok.inj hc).symm⟩
    · exact ⟨g, (Except.ok.inj hc).symm⟩

theorem validNamespace_eq {ρ : Type} (ctx : Context) (r : ObjectMeta ρ) :
    ValidNamespace ctx r =
      if r.Namespace = "" then
        ((NamespaceFrom ctx).2, { r with Namespace := (NamespaceFrom ctx).1 })
      else (decide ((NamespaceFrom ctx).1 = r.Namespace) && (NamespaceFrom ctx).2, r) := by
  unfold ValidNamespace
  rcases h : NamespaceFrom ctx with ⟨ns, ok⟩
  simp only [len_beq_zero]
  by_cases hn : r.Namespace = "" <;> by_cases hx : ns = r.Namespace <;> simp [hn, hx]

end api

/-! The contract. -/

namespace api

/-- C1: for every context `c` produced by the package's operations, one that
already has a namespace bound included, and every string `n`, the empty string
included, `WithNamespace(c, n)` returns a context on which `NamespaceFrom`
returns exactly `(n, true)`: the newest binding shadows every ancestor
binding. -/
theorem namespaceFrom_withNamespace (c : Context) (n : String) (h : Produced c) :
    ∃ c', WithNamespace c n = .ok c' ∧ NamespaceFrom c' = (n, true) := by
  obtain ⟨g, rfl⟩ := h.exists_prim
  exact ⟨_, withNamespace_prim g n, namespaceFrom_prim_valueCtx_namespaceKey g _⟩

/-- C1 at a context that already binds the namespace "ns1", rebound to the
empty string. -/
theorem namespaceFrom_withNamespace_witness :
    Produced (.prim (.valueCtx .emptyCtx namespaceKey (Any.string "ns1"))) ∧
      ∃ c', WithNamespace (.prim (.valueCtx .emptyCtx namespaceKey (Any.string "ns1"))) ""
          = .ok c' ∧ NamespaceFrom c' = ("", true) :=
  ⟨Produced.withNamespace NewContext "ns1" _ Produced.newContext rfl,
   namespaceFrom_withNamespace _ ""
     (Produced.withNamespace NewContext "ns1" _ Produced.newContext rfl)⟩

/-- C2: for every context and resource, `ValidNamespace` returns true exactly
when `NamespaceFrom` reports found and the resource's namespace after the call
equals the context's namespace string; equivalently, exactly when the namespace
is found and the resource's namespace before the call was empty or equal to the
context's namespace.  With no namespace bound it returns false for every
resource, one with an empty namespace included. -/
theorem validNamespace_true_iff {ρ : Type} (ctx : Context) (r : ObjectMeta ρ) :
    ((ValidNamespace ctx r).1 = true ↔
        (NamespaceFrom ctx).2 = true ∧
          (ValidNamespace ctx r).2.Namespace = (NamespaceFrom ctx).1) ∧
    ((ValidNamespace ctx r).1 = true ↔
        (NamespaceFrom ctx).2 = true ∧
          (r.Namespace = "" ∨ r.Namespace = (NamespaceFrom ctx).1)) ∧
    ((NamespaceFrom ctx).2 = false → (ValidNamespace ctx r).1 = false) := by
  rw [validNamespace_eq]
  by_cases hn : r.Namespace = ""
  · simp [hn]
  · simp only [hn, if_false, false_or, Bool.and_eq_true, decide_eq_true_eq]
    refine ⟨?_, ?_, ?_⟩
    · constructor
      · rintro ⟨h1, h2⟩; exact ⟨h2, h1.symm⟩
      · rintro ⟨h1, h2⟩; exact ⟨h2.symm, h1⟩
    · constructor
      · rintro ⟨h1, h2⟩; exact ⟨h2, h1.symm⟩
      · rintro ⟨h1, h2⟩; exact ⟨h2.symm, h1⟩
    · intro h; simp [h]

/-- C2 at the base context, which has no namespace, and a resource with an empty
namespace: the call returns false. -/
theorem validNamespace_true_iff_witness :
    (NamespaceFrom NewContext).2 = false ∧
      (ValidNamespace NewContext (⟨"", ()⟩ : ObjectMeta Unit)).1 = false :=
  ⟨rfl, (validNamespace_true_iff NewContext (⟨"", ()⟩ : ObjectMeta Unit)).2.2 rfl⟩

/-- C3: after `ValidNamespace(ctx, r)` the field `r.Namespace` is the context's
namespace string if it was empty before the call and is unchanged if it was not,
and no other field of `r` is changed.  With the context namespace "ns1", a
resource with namespace "" ends with "ns1" and the call returns true, and a
resource with namespace "ns2" keeps "ns2" and the call returns false. -/
theorem validNamespace_resource {ρ : Type} (ctx : Context) (r : ObjectMeta ρ) :
    (r.Namespace = "" → (ValidNamespace ctx r).2.Namespace = (NamespaceFrom ctx).1) ∧
    (r.Namespace ≠ "" → (ValidNamespace ctx r).2 = r) ∧
    (ValidNamespace ctx r).2.rest = r.rest ∧
    (NamespaceFrom ctx = ("ns1", true) →
      ValidNamespace ctx { r with Namespace := "" } = (true, { r with Namespace := "ns1" }) ∧
      ValidNamespace ctx { r with Namespace := "ns2" }
        = (false, { r with Namespace := "ns2" })) := by
  refine ⟨?_, ?_, ?_, ?_⟩
  · intro h; rw [validNamespace_eq, if_pos h]
  · intro h; rw [validNamespace_eq, if_neg h]
  · rw [validNamespace_eq]; split <;> rfl
  · intro h
    constructor
    · rw [validNamespace_eq, h]; rfl
    · rw [validNamespace_eq, h]; rfl

/-- C3 at the context whose namespace is "ns1" and the resources with namespace
"" and "ns2". -/
theorem validNamespace_resource_witness :
    ValidNamespace (.prim (.valueCtx .emptyCtx namespaceKey (Any.string "ns1")))
        (⟨"", 7⟩ : ObjectMeta Nat) = (true, ⟨"ns1", 7⟩) ∧
    ValidNamespace (.prim (.valueCtx .emptyCtx namespaceKey (Any.string "ns1")))
        (⟨"ns2", 7⟩ : ObjectMeta Nat) = (false, ⟨"ns2", 7⟩) :=
  (validNamespace_resource (.prim (.valueCtx .emptyCtx namespaceKey (Any.string "ns1")))
    (⟨"", 7⟩ : ObjectMeta Nat)).2.2.2 rfl

/-- C4: the code at the two inputs where it departs from its documentation
("a context whose namespace is the default if and only if the parent context
has no namespace value").  The parent `NewDefaultContext()` has a namespace
value (found), and so has the parent whose namespace is bound to the empty
string, yet the result's namespace is the default in both cases. -/
theorem withNamespaceDefaultIfNone_default_on_found :
    (Produced (.prim (.valueCtx .emptyCtx namespaceKey (Any.string "default"))) ∧
      NewDefaultContext "default"
        = .ok (.prim (.valueCtx .emptyCtx namespaceKey (Any.string "default"))) ∧
      WithNamespaceDefaultIfNone "default"
          (.prim (.valueCtx .emptyCtx namespaceKey (Any.string "default")))
        = .ok (.prim (.valueCtx .emptyCtx namespaceKey (Any.string "default"))) ∧
      NamespaceFrom (.prim (.valueCtx .emptyCtx namespaceKey (Any.string "default")))
        = ("default", true) ∧
      ¬(NamespaceFrom (.prim (.valueCtx .emptyCtx namespaceKey (Any.string "default")))
          = ("default", true) ↔
        (NamespaceFrom (.prim (.valueCtx .emptyCtx namespaceKey (Any.string "default")))).2
          = false)) ∧
    (Produced (.prim (.valueCtx .emptyCtx namespaceKey (Any.string ""))) ∧
      NamespaceFrom (.prim (.valueCtx .emptyCtx namespaceKey (Any.string ""))) = ("", true) ∧
      WithNamespaceDefaultIfNone "default"
          (.prim (.valueCtx .emptyCtx namespaceKey (Any.string "")))
        = .ok (.prim (.valueCtx (.valueCtx .emptyCtx namespaceKey (Any.string ""))
            namespaceKey (Any.string "default"))) ∧
      NamespaceFrom (.prim (.valueCtx (.valueCtx .emptyCtx namespaceKey (Any.string ""))
            namespaceKey (Any.string "default"))) = ("default", true)) :=
  ⟨⟨Produced.newDefaultContext "default" _ rfl, rfl, rfl, by decide, by decide⟩,
   ⟨Produced.withNamespace NewContext "" _ Produced.newContext rfl, by decide, rfl,
    by decide⟩⟩

/-- What the code does, as against what it documents: for every produced parent
`WithNamespaceDefaultIfNone(parent)` returns a context, and its namespace is the
default one exactly when the parent has no namespace value, or has the empty
string bound, or has the default namespace itself bound. -/
theorem withNamespaceDefaultIfNone_default_iff (d : String) (parent : Context)
    (h : Produced parent) :
    ∃ c, WithNamespaceDefaultIfNone d parent = .ok c ∧
      (NamespaceFrom c = (d, true) ↔
        (NamespaceFrom parent).2 = false ∨ (NamespaceFrom parent).1 = "" ∨
          (NamespaceFrom parent).1 = d) := by
  obtain ⟨g, rfl⟩ := h.exists_prim
  rw [withNamespaceDefaultIfNone_eq]
  by_cases hc : (NamespaceFrom (.prim g)).2 = false ∨ (NamespaceFrom (.prim g)).1 = ""
  · rw [if_pos hc, withNamespace_prim]
    refine ⟨_, rfl, ?_⟩
    rw [namespaceFrom_prim_valueCtx_namespaceKey]
    constructor
    · intro _
      rcases hc with hc | hc
      · exact Or.inl hc
      · exact Or.inr (Or.inl hc)
    · intro _; rfl
  · rw [if_neg hc]
    refine ⟨_, rfl, ?_⟩
    rcases hp : NamespaceFrom (.prim g) with ⟨ns, ok⟩
    rw [hp] at hc
    cases ok <;> simp_all

/-- The same at the base context (no namespace, so the default is bound). -/
theorem withNamespaceDefaultIfNone_default_iff_witness :
    Produced NewContext ∧
      ∃ c, WithNamespaceDefaultIfNone "default" NewContext = .ok c ∧
        (NamespaceFrom c = ("default", true) ↔
          (NamespaceFrom NewContext).2 = false ∨ (NamespaceFrom NewContext).1 = "" ∨
            (NamespaceFrom NewContext).1 = "default") :=
  ⟨Produced.newContext,
   withNamespaceDefaultIfNone_default_iff "default" NewContext Produced.newContext⟩

/-- C5: for every produced parent, if `NamespaceFrom(parent)` reports not found,
or found with an empty string, `WithNamespaceDefaultIfNone(parent)` is
`WithNamespace(parent, NamespaceDefault)`, which returns a context; otherwise it
returns `parent` itself, with no frame added. -/
theorem withNamespaceDefaultIfNone_cases (d : String) (parent : Context)
    (h : Produced parent) :
    ((NamespaceFrom parent).2 = false ∨ (NamespaceFrom parent).1 = "" →
      WithNamespaceDefaultIfNone d parent = WithNamespace parent d ∧
        ∃ c, WithNamespace parent d = .ok c) ∧
    (¬((NamespaceFrom parent).2 = false ∨ (NamespaceFrom parent).1 = "") →
      WithNamespaceDefaultIfNone d parent = .ok parent) := by
  obtain ⟨g, rfl⟩ := h.exists_prim
  constructor
  · intro hc
    rw [withNamespaceDefaultIfNone_eq, if_pos hc]
    exact ⟨rfl, _, withNamespace_prim g d⟩
  · intro hc
    rw [withNamespaceDefaultIfNone_eq, if_neg hc]

/-- C5 at the context whose namespace is "ns1": it is returned as it is. -/
theorem withNamespaceDefaultIfNone_cases_witness :
    Produced (.prim (.valueCtx .emptyCtx namespaceKey (Any.string "ns1"))) ∧
      WithNamespaceDefaultIfNone "default"
          (.prim (.valueCtx .emptyCtx namespaceKey (Any.string "ns1")))
        = .ok (.prim (.valueCtx .emptyCtx namespaceKey (Any.string "ns1"))) :=
  ⟨Produced.withNamespace NewContext "ns1" _ Produced.newContext rfl,
   (withNamespaceDefaultIfNone_cases "default" _
      (Produced.withNamespace NewContext "ns1" _ Produced.newContext rfl)).2 (by decide)⟩

/-- C6: `WithNamespaceDefaultIfNone` is idempotent under `NamespaceFrom`: on a
produced context both applications return, and the second result has the same
`NamespaceFrom` as the first. -/
theorem withNamespaceDefaultIfNone_idempotent (d : String) (c : Context)
    (h : Produced c) :
    ∃ c₁ c₂, WithNamespaceDefaultIfNone d c = .ok c₁ ∧
      WithNamespaceDefaultIfNone d c₁ = .ok c₂ ∧ NamespaceFrom c₂ = NamespaceFrom c₁ := by
  obtain ⟨g, rfl⟩ := h.exists_prim
  have step : ∀ g' : context.Context,
      (NamespaceFrom (.prim g')).2 = false ∨ (NamespaceFrom (.prim g')).1 = "" →
      WithNamespaceDefaultIfNone d (.prim g')
        = .ok (.prim (.valueCtx g' namespaceKey (Any.string d))) := by
    intro g' hc
    rw [withNamespaceDefaultIfNone_eq, if_pos hc, withNamespace_prim]
  have keep : ∀ g' : context.Context,
      ¬((NamespaceFrom (.prim g')).2 = false ∨ (NamespaceFrom (.prim g')).1 = "") →
      WithNamespaceDefaultIfNone d (.prim g') = .ok (.prim g') := by
    intro g' hc
    rw [withNamespaceDefaultIfNone_eq, if_neg hc]
  by_cases hc : (NamespaceFrom (.prim g)).2 = false ∨ (NamespaceFrom (.prim g)).1 = ""
  · by_cases hd : (NamespaceFrom (.prim (.valueCtx g namespaceKey (Any.string d)))).2 = false ∨
        (NamespaceFrom (.prim (.valueCtx g namespaceKey (Any.string d)))).1 = ""
    · refine ⟨_, _, step g hc, step _ hd, ?_⟩
      rw [namespaceFrom_prim_valueCtx_namespaceKey, namespaceFrom_prim_valueCtx_namespaceKey]
    · exact ⟨_, _, step g hc, keep _ hd, rfl⟩
  · exact ⟨_, _, keep g hc, keep g hc, rfl⟩

/-- C6 at the base context: the default is bound once and kept. -/
theorem withNamespaceDefaultIfNone_idempotent_witness :
    Produced NewContext ∧
      ∃ c₁ c₂, WithNamespaceDefaultIfNone "default" NewContext = .ok c₁ ∧
        WithNamespaceDefaultIfNone "default" c₁ = .ok c₂ ∧
        NamespaceFrom c₂ = NamespaceFrom c₁ :=
  ⟨Produced.newContext,
   withNamespaceDefaultIfNone_idempotent "default" NewContext Produced.newContext⟩

/-- C7: `WithValue(parent, key, val)` halts with "Invalid context type" whenever
`parent` is not a value of the primitive, it halts in no other case, and for a
parent produced by the package's operations it returns a context. -/
theorem withValue_halts_iff (parent : Context) (key val : Any) :
    ((∃ f, parent = .foreign f) → WithValue parent key val = .error "Invalid context type") ∧
    ((∃ e, WithValue parent key val = .error e) ↔ ∃ f, parent = .foreign f) ∧
    (Produced parent → ∃ c, WithValue parent key val = .ok c) := by
  refine ⟨?_, ?_, ?_⟩
  · rintro ⟨f, rfl⟩; rfl
  · constructor
    · rintro ⟨e, he⟩
      cases parent with
      | prim g => rw [withValue_prim] at he; cases he
      | foreign f => exact ⟨f, rfl⟩
    · rintro ⟨f, rfl⟩; exact ⟨_, rfl⟩
  · intro h
    obtain ⟨g, rfl⟩ := h.exists_prim
    exact ⟨_, rfl⟩

/-- C7 at a context that implements `Value` alone (the call halts) and at the
base context (the call returns). -/
theorem withValue_halts_iff_witness :
    WithValue (.foreign (fun _ => Any.nil)) (Any.int 1) (Any.string "v")
        = .error "Invalid context type" ∧
      ∃ c, WithValue NewContext (Any.int 1) (Any.string "v") = .ok c :=
  ⟨(withValue_halts_iff (.foreign (fun _ => Any.nil)) (Any.int 1) (Any.string "v")).1 ⟨_, rfl⟩,
   (withValue_halts_iff NewContext (Any.int 1) (Any.string "v")).2.2 Produced.newContext⟩

end api

namespace api.effect

theorem namespaceFrom_of_ok (ctx : Context) (v : Any) (h : ctx.Value namespaceKey = .ok v) :
    NamespaceFrom ctx = .ok v.assertString := by
  unfold NamespaceFrom; rw [h]

theorem namespaceFrom_of_error (ctx : Context) (e : String)
    (h : ctx.Value namespaceKey = .error e) : NamespaceFrom ctx = .error e := by
  unfold NamespaceFrom; rw [h]

theorem withNamespace_of_isContext (ctx : Context) (n : String) (h : ctx.isContext = true) :
    WithNamespace ctx n
      = .ok ⟨fun k => if Any.equals namespaceKey k then .ok (Any.string n) else ctx.Value k,
          true⟩ := by
  unfold WithNamespace WithValue; rw [if_pos h]

/-- The two embeddings agree on the contexts of `api`, those whose `Value`
returns for every key. -/
theorem toEffect_agrees {ρ : Type} (d : String) (c : api.Context) (k v : Any)
    (r : ObjectMeta ρ) :
    NewContext = .ok api.NewContext.toEffect ∧
    NamespaceFrom c.toEffect = .ok (api.NamespaceFrom c) ∧
    Namespace c.toEffect = .ok (api.Namespace c) ∧
    ValidNamespace c.toEffect r = .ok (api.ValidNamespace c r) ∧
    WithValue c.toEffect k v = (api.WithValue c k v).map api.Context.toEffect ∧
    WithNamespaceDefaultIfNone d c.toEffect
      = (api.WithNamespaceDefaultIfNone d c).map api.Context.toEffect := by
  have hv : ∀ k' v', WithValue c.toEffect k' v'
      = (api.WithValue c k' v').map api.Context.toEffect := by
    intro k' v'
    cases c with
    | foreign f => rfl
    | prim g =>
      show Except.ok _ = Except.ok _
      congr 1
      show Context.mk _ _ = Context.mk _ _
      congr 1
      funext x
      show (if Any.equals k' x then _ else _) = Except.ok (if Any.equals k' x then _ else _)
      split <;> rfl
  refine ⟨rfl, rfl, rfl, rfl, hv k v, ?_⟩
  have h1 : NamespaceFrom c.toEffect = .ok (api.NamespaceFrom c) := rfl
  unfold WithNamespaceDefaultIfNone api.WithNamespaceDefaultIfNone
  rw [h1]
  rcases api.NamespaceFrom c with ⟨ns, ok⟩
  dsimp only
  split
  · exact hv _ _
  · rfl

/-- C8, as stated, fails: on a context that implements `Value` alone, and has no
namespace, `WithNamespace` and `WithNamespaceDefaultIfNone` halt with "Invalid
context type"; and on a context whose `Value` panics, `NamespaceFrom`,
`Namespace` and `ValidNamespace` do not return either. -/
theorem operations_total_counterexample :
    (WithNamespace ⟨fun _ => .ok Any.nil, false⟩ "ns1" = .error "Invalid context type" ∧
      NamespaceFrom ⟨fun _ => .ok Any.nil, false⟩ = .ok ("", false) ∧
      WithNamespaceDefaultIfNone "default" ⟨fun _ => .ok Any.nil, false⟩
        = .error "Invalid context type") ∧
    (NamespaceFrom ⟨fun _ => .error "boom", false⟩ = .error "boom" ∧
      Namespace ⟨fun _ => .error "boom", false⟩ = .error "boom" ∧
      ValidNamespace ⟨fun _ => .error "boom", false⟩ (⟨"", ()⟩ : ObjectMeta Unit)
        = .error "boom") :=
  ⟨⟨rfl, rfl, rfl⟩, ⟨rfl, rfl, rfl⟩⟩

/-- C8, amended.  `NewContext` and `NewDefaultContext` return a context.
`NamespaceFrom`, `Namespace` and `ValidNamespace` have no failure path of their
own: they return, with the result the code computes, when the one call
`ctx.Value(namespaceKey)` returns, and pass its panic on when it panics.
`WithNamespace` returns a context when `parent` is a value of the primitive and
halts with "Invalid context type" when it is not.  `WithNamespaceDefaultIfNone`
passes a panic of `parent.Value` on; it returns `parent` itself when a non-empty
namespace is bound, whatever `parent` is; and it is
`WithNamespace(parent, NamespaceDefault)` in every other case. -/
theorem operations_total {ρ : Type} (d n : String) (ctx : Context) (r : ObjectMeta ρ) :
    (∃ c, NewContext = .ok c ∧ c.isContext = true ∧ ∀ k, c.Value k = .ok Any.nil) ∧
    (∃ c, NewDefaultContext d = .ok c ∧ c.isContext = true ∧
      NamespaceFrom c = .ok (d, true)) ∧
    (∀ v, ctx.Value namespaceKey = .ok v →
      NamespaceFrom ctx = .ok v.assertString ∧
      Namespace ctx = .ok v.assertString.1 ∧
      ValidNamespace ctx r = .ok
        (if r.Namespace = "" then
          (v.assertString.2, { r with Namespace := v.assertString.1 })
        else (decide (v.assertString.1 = r.Namespace) && v.assertString.2, r))) ∧
    (∀ e, ctx.Value namespaceKey = .error e →
      NamespaceFrom ctx = .error e ∧ Namespace ctx = .error e ∧
      ValidNamespace ctx r = .error e ∧ WithNamespaceDefaultIfNone d ctx = .error e) ∧
    (ctx.isContext = true →
      ∃ c, WithNamespace ctx n = .ok c ∧ c.isContext = true ∧
        NamespaceFrom c = .ok (n, true)) ∧
    (ctx.isContext = false → WithNamespace ctx n = .error "Invalid context type") ∧
    (∀ v, ctx.Value namespaceKey = .ok v →
      v.assertString.2 = true → v.assertString.1 ≠ "" →
      WithNamespaceDefaultIfNone d ctx = .ok ctx) ∧
    (∀ v, ctx.Value namespaceKey = .ok v →
      v.assertString.2 = false ∨ v.assertString.1 = "" →
      WithNamespaceDefaultIfNone d ctx = WithNamespace ctx d) := by
  have hns : ∀ (c : Context) (m : String), c.isContext = true →
      ∃ c', WithNamespace c m = .ok c' ∧ c'.isContext = true ∧
        NamespaceFrom c' = .ok (m, true) := by
    intro c m hc
    refine ⟨_, withNamespace_of_isContext c m hc, rfl,
      namespaceFrom_of_ok _ (Any.string m) ?_⟩
    show (if Any.equals namespaceKey namespaceKey = true then Except.ok (Any.string m)
      else c.Value namespaceKey) = Except.ok (Any.string m)
    rw [if_pos (by decide)]
  refine ⟨⟨_, rfl, rfl, fun _ => rfl⟩, hns _ d rfl, ?_, ?_, hns ctx n, ?_, ?_, ?_⟩
  · intro v hv
    have h1 := namespaceFrom_of_ok ctx v hv
    refine ⟨h1, ?_, ?_⟩
    · unfold Namespace; rw [h1]
    · unfold ValidNamespace; rw [h1]
      rcases v.assertString with ⟨ns, ok⟩
      simp only [len_beq_zero]
      by_cases hn : r.Namespace = "" <;> by_cases hx : ns = r.Namespace <;> simp [hn, hx]
  · intro e he
    have h1 := namespaceFrom_of_error ctx e he
    refine ⟨h1, ?_, ?_, ?_⟩
    · unfold Namespace; rw [h1]
    · unfold ValidNamespace; rw [h1]
    · unfold WithNamespaceDefaultIfNone; rw [h1]
  · intro hc
    unfold WithNamespace WithValue
    rw [hc]; rfl
  · intro v hv h2 h1
    unfold WithNamespaceDefaultIfNone
    rw [namespaceFrom_of_ok ctx v hv]
    rcases hvs : v.assertString with ⟨ns, ok⟩
    rw [hvs] at h1 h2
    simp only at h1 h2 ⊢
    subst h2
    simp [len_beq_zero, h1]
  · intro v hv h
    unfold WithNamespaceDefaultIfNone
    rw [namespaceFrom_of_ok ctx v hv]
    rcases hvs : v.assertString with ⟨ns, ok⟩
    rw [hvs] at h
    simp only at h ⊢
    rcases h with h | h
    · subst h; simp
    · subst h; simp [len_beq_zero]

/-- C8, amended, at a context that implements `Value` alone and answers every
key with the string "ns1": `NamespaceFrom` returns, `WithNamespace` halts, and
`WithNamespaceDefaultIfNone` returns the context itself. -/
theorem operations_total_witness :
    NamespaceFrom ⟨fun _ => .ok (Any.string "ns1"), false⟩ = .ok ("ns1", true) ∧
    WithNamespace ⟨fun _ => .ok (Any.string "ns1"), false⟩ "ns2"
      = .error "Invalid context type" ∧
    WithNamespaceDefaultIfNone "default" ⟨fun _ => .ok (Any.string "ns1"), false⟩
      = .ok ⟨fun _ => .ok (Any.string "ns1"), false⟩ :=
  ⟨((operations_total "default" "ns2" ⟨fun _ => .ok (Any.string "ns1"), false⟩
      (⟨"", ()⟩ : ObjectMeta Unit)).2.2.1 (Any.string "ns1") rfl).1,
   (operations_total "default" "ns2" ⟨fun _ => .ok (Any.string "ns1"), false⟩
      (⟨"", ()⟩ : ObjectMeta Unit)).2.2.2.2.2.1 rfl,
   (operations_total "default" "ns2" ⟨fun _ => .ok (Any.string "ns1"), false⟩
      (⟨"", ()⟩ : ObjectMeta Unit)).2.2.2.2.2.2.1 (Any.string "ns1") rfl rfl (by decide)⟩

end api.effect

namespace api

/-- C9: on every context on which no namespace was ever attached, the base
context and what `WithValue` builds from it with keys other than the namespace
key, `NamespaceFrom` returns exactly `("", false)`. -/
theorem namespaceFrom_neverAttached (c : Context) (h : NeverAttached c) :
    NamespaceFrom c = ("", false) := by
  induction h with
  | newContext => rfl
  | withValue parent key val c _ hk hc ih =>
    cases parent with
    | prim g =>
      rw [withValue_prim] at hc
      rw [← Except.ok.inj hc, namespaceFrom_prim_valueCtx_of_ne g key val hk]
      exact ih
    | foreign f => rw [withValue_foreign] at hc; cases hc

/-- C9 at the base context extended with the integer key 0 and the string key
"namespace". -/
theorem namespaceFrom_neverAttached_witness :
    NamespaceFrom (.prim (.valueCtx (.valueCtx .emptyCtx (Any.int 0) (Any.string "a"))
        (Any.string "namespace") (Any.string "b"))) = ("", false) :=
  namespaceFrom_neverAttached _
    (NeverAttached.withValue _ (Any.string "namespace") (Any.string "b") _
      (NeverAttached.withValue NewContext (Any.int 0) (Any.string "a") _
        NeverAttached.newContext (by decide) rfl)
      (by decide) rfl)

/-- C10: a namespace key bound to a value that is not a string is treated like
an absent key: for every context `c` that is a value of the primitive and every
non-string `v`, `WithValue(c, namespaceKey, v)` returns a context on which
`NamespaceFrom` returns `("", false)`, whatever the frames of `c` bind. -/
theorem namespaceFrom_withValue_nonString (g : context.Context) (v : Any)
    (hv : ∀ s, v ≠ Any.string s) :
    ∃ c', WithValue (.prim g) namespaceKey v = .ok c' ∧ NamespaceFrom c' = ("", false) := by
  refine ⟨_, withValue_prim g namespaceKey v, ?_⟩
  rw [namespaceFrom_prim_valueCtx_namespaceKey]
  cases v with
  | string s => exact absurd rfl (hv s)
  | nil => rfl
  | int n => rfl
  | key n => rfl
  | float64 b => rfl
  | named t r => rfl

/-- C10 at a context whose namespace is "ns1", rebound to the integer 5: the
string binding of the ancestor frame is shadowed. -/
theorem namespaceFrom_withValue_nonString_witness :
    NamespaceFrom (.prim (.valueCtx .emptyCtx namespaceKey (Any.string "ns1"))) = ("ns1", true) ∧
      ∃ c', WithValue (.prim (.valueCtx .emptyCtx namespaceKey (Any.string "ns1")))
          namespaceKey (Any.int 5) = .ok c' ∧ NamespaceFrom c' = ("", false) :=
  ⟨by decide,
   namespaceFrom_withValue_nonString (.valueCtx .emptyCtx namespaceKey (Any.string "ns1"))
     (Any.int 5) (fun s h => by cases h)⟩

end api

/-! Lookups on extended contexts, and the accessors. -/

namespace api

theorem namespaceFrom_fst_of_not_found (ctx : Context) (h : (NamespaceFrom ctx).2 = false) :
    (NamespaceFrom ctx).1 = "" := by
  unfold NamespaceFrom at h ⊢
  cases hv : ctx.Value namespaceKey <;> rw [hv] at h <;> first | rfl | cases h

/-- C11, as stated, fails: on the base context extended with a `float64` NaN
key, looking that key up yields nothing, since a NaN is not `==` to itself; and
on the base context extended with the key `+0.0`, looking up the different key
`-0.0` yields the new value and not what the parent yields. -/
theorem value_withValue_counterexample :
    (Any.float64IsNaN 0x7FF8000000000000 = true ∧
      WithValue NewContext (Any.float64 0x7FF8000000000000) (Any.string "v")
        = .ok (.prim (.valueCtx .emptyCtx (Any.float64 0x7FF8000000000000) (Any.string "v"))) ∧
      Context.Value
          (.prim (.valueCtx .emptyCtx (Any.float64 0x7FF8000000000000) (Any.string "v")))
          (Any.float64 0x7FF8000000000000) = Any.nil) ∧
    (Any.float64 0x8000000000000000 ≠ Any.float64 0 ∧
      WithValue NewContext (Any.float64 0) (Any.string "v")
        = .ok (.prim (.valueCtx .emptyCtx (Any.float64 0) (Any.string "v"))) ∧
      Context.Value (.prim (.valueCtx .emptyCtx (Any.float64 0) (Any.string "v")))
          (Any.float64 0x8000000000000000) = Any.string "v" ∧
      Context.Value NewContext (Any.float64 0x8000000000000000) = Any.nil) :=
  ⟨⟨by decide, rfl, by decide⟩, ⟨by decide, rfl, by decide, by decide⟩⟩

/-- C11, amended: for every parent that is a value of the primitive, every key
`k` and every value `v`, `WithValue(parent, k, v)` returns a context on which
looking up a key that is `==` to `k` yields `v`, and looking up a key that is
not `==` to `k` yields what the parent yields for it, found or absent alike.  So
looking up `k` itself yields `v` unless `k` is a floating-point NaN; and when
`k` is not a `float64`, every key different from `k` yields what the parent
yields. -/
theorem value_withValue (g : context.Context) (k v : Any) :
    ∃ c, WithValue (.prim g) k v = .ok c ∧
      (∀ k', Any.equals k k' = true → c.Value k' = v) ∧
      (∀ k', Any.equals k k' = false → c.Value k' = (Context.prim g).Value k') ∧
      ((∀ bits, k = Any.float64 bits → Any.float64IsNaN bits = false) → c.Value k = v) ∧
      (∀ bits, k = Any.float64 bits → Any.float64IsNaN bits = true →
        c.Value k = (Context.prim g).Value k) ∧
      ((∀ bits, k ≠ Any.float64 bits) →
        ∀ k', k' ≠ k → c.Value k' = (Context.prim g).Value k') := by
  have heq : ∀ k', Any.equals k k' = true →
      Context.Value (.prim (.valueCtx g k v)) k' = v := by
    intro k' h
    simp [Context.Value, context.Context.Value, h]
  have hne : ∀ k', Any.equals k k' = false →
      Context.Value (.prim (.valueCtx g k v)) k' = (Context.prim g).Value k' := by
    intro k' h
    simp [Context.Value, context.Context.Value, h]
  refine ⟨_, withValue_prim g k v, heq, hne, ?_, ?_, ?_⟩
  · intro h
    exact heq k (Any.equals_self k h)
  · intro bits hk hnan
    apply hne
    rw [hk]
    show Any.float64Equals bits bits = false
    simp [Any.float64Equals, hnan]
  · intro h k' hk
    apply hne
    rw [Any.equals_of_not_float64 k k' h]
    exact decide_eq_false (fun e => hk e.symm)

/-- C11, amended, at the default context extended with the string key "user":
the new key yields its value, the namespace key still yields the namespace, and
a key bound nowhere is still absent. -/
theorem value_withValue_witness :
    ∃ c, WithValue (.prim (.valueCtx .emptyCtx namespaceKey (Any.string "default")))
        (Any.string "user") (Any.int 7) = .ok c ∧
      c.Value (Any.string "user") = Any.int 7 ∧
      c.Value namespaceKey = Any.string "default" ∧
      c.Value (Any.int 3) = Any.nil := by
  obtain ⟨c, hc, _, _, hk, _, hne⟩ :=
    value_withValue (.valueCtx .emptyCtx namespaceKey (Any.string "default"))
      (Any.string "user") (Any.int 7)
  exact ⟨c, hc, hk (fun _ h => by cases h),
    (hne (fun _ h => by cases h) namespaceKey (by decide)).trans (by decide),
    (hne (fun _ h => by cases h) (Any.int 3) (by decide)).trans (by decide)⟩

/-- C12: the namespace binding cannot be shadowed by another key: for every
context that is a value of the primitive, every value `v` and every key `k`
other than the private namespace key, `WithValue(c, k, v)` returns a context
with the same `NamespaceFrom` as `c`. -/
theorem namespaceFrom_withValue_other_key (g : context.Context) (k v : Any)
    (hk : k ≠ namespaceKey) :
    ∃ c, WithValue (.prim g) k v = .ok c ∧ NamespaceFrom c = NamespaceFrom (.prim g) :=
  ⟨_, withValue_prim g k v, namespaceFrom_prim_valueCtx_of_ne g k v hk⟩

/-- C12 at the context whose namespace is "ns1" and the equal-looking key of
another type, the plain integer 0, bound to a string. -/
theorem namespaceFrom_withValue_other_key_witness :
    Any.int 0 ≠ namespaceKey ∧ Any.string "namespace" ≠ namespaceKey ∧
      ∃ c, WithValue (.prim (.valueCtx .emptyCtx namespaceKey (Any.string "ns1")))
          (Any.int 0) (Any.string "ns2") = .ok c ∧
        NamespaceFrom c
          = NamespaceFrom (.prim (.valueCtx .emptyCtx namespaceKey (Any.string "ns1"))) :=
  ⟨by decide, by decide,
   namespaceFrom_withValue_other_key (.valueCtx .emptyCtx namespaceKey (Any.string "ns1"))
     (Any.int 0) (Any.string "ns2") (by decide)⟩

/-- C13: `NewDefaultContext()` never fails, and on the context it returns
`NamespaceFrom` gives `(NamespaceDefault, true)`. -/
theorem newDefaultContext_namespaceFrom (d : String) :
    ∃ ctx, NewDefaultContext d = .ok ctx ∧ NamespaceFrom ctx = (d, true) :=
  ⟨_, rfl, namespaceFrom_prim_valueCtx_namespaceKey context.TODO (Any.string d)⟩

/-- C14: `Namespace(ctx)` is the first component of `NamespaceFrom(ctx)`, and is
the empty string when no namespace is bound; so a context with no namespace and
a context whose namespace is bound to the empty string have the same `Namespace`
although their `NamespaceFrom` results differ in the found flag. -/
theorem namespace_eq_namespaceFrom_fst (ctx : Context) :
    Namespace ctx = (NamespaceFrom ctx).1 ∧
    ((NamespaceFrom ctx).2 = false → Namespace ctx = "") ∧
    (∀ other : Context, (NamespaceFrom ctx).2 = false → NamespaceFrom other = ("", true) →
      Namespace ctx = Namespace other ∧ NamespaceFrom ctx ≠ NamespaceFrom other) := by
  refine ⟨rfl, namespaceFrom_fst_of_not_found ctx, ?_⟩
  intro other h ho
  constructor
  · show (NamespaceFrom ctx).1 = (NamespaceFrom other).1
    rw [namespaceFrom_fst_of_not_found ctx h, ho]
  · intro he
    rw [he, ho] at h
    cases h

/-- C14 at the base context, which has no namespace, against the base context
with the empty string bound as its namespace. -/
theorem namespace_eq_namespaceFrom_fst_witness :
    NamespaceFrom NewContext = ("", false) ∧
      NamespaceFrom (.prim (.valueCtx .emptyCtx namespaceKey (Any.string ""))) = ("", true) ∧
      Namespace NewContext = "" ∧
      Namespace NewContext
        = Namespace (.prim (.valueCtx .emptyCtx namespaceKey (Any.string ""))) :=
  ⟨by decide, by decide, (namespace_eq_namespaceFrom_fst NewContext).2.1 rfl,
   ((namespace_eq_namespaceFrom_fst NewContext).2.2
      (.prim (.valueCtx .emptyCtx namespaceKey (Any.string ""))) rfl (by decide)).1⟩

/-- C15: `ValidNamespace` is stable under repetition: a second call right after
a first one returns the same boolean and leaves the resource, its namespace
included, as the first call left it. -/
theorem validNamespace_repeat {ρ : Type} (ctx : Context) (r : ObjectMeta ρ) :
    ValidNamespace ctx (ValidNamespace ctx r).2 = ValidNamespace ctx r := by
  by_cases hn : r.Namespace = ""
  · rw [validNamespace_eq ctx r, if_pos hn]
    rw [validNamespace_eq]
    by_cases hs : (NamespaceFrom ctx).1 = ""
    · rw [if_pos hs]
    · rw [if_neg hs]
      simp
  · have h1 : (ValidNamespace ctx r).2 = r := by rw [validNamespace_eq, if_neg hn]
    rw [h1]

/-- C16: when `NamespaceDefault` is not the empty string, for every context `c`
that is a value of the primitive `WithNamespaceDefaultIfNone(c)` returns a
context with a namespace bound and non-empty; a second application returns that
context itself; and `ValidNamespace` on it with a resource whose namespace is
empty returns true and leaves the resource with a non-empty namespace. -/
theorem withNamespaceDefaultIfNone_bound_nonempty {ρ : Type} (d : String)
    (g : context.Context) (r : ObjectMeta ρ) (hd : d ≠ "") (hr : r.Namespace = "") :
    ∃ c, WithNamespaceDefaultIfNone d (.prim g) = .ok c ∧
      (NamespaceFrom c).2 = true ∧ (NamespaceFrom c).1 ≠ "" ∧
      WithNamespaceDefaultIfNone d c = .ok c ∧
      (ValidNamespace c r).1 = true ∧ (ValidNamespace c r).2.Namespace ≠ "" := by
  have fin : ∀ c : Context, (NamespaceFrom c).2 = true → (NamespaceFrom c).1 ≠ "" →
      (NamespaceFrom c).2 = true ∧ (NamespaceFrom c).1 ≠ "" ∧
      WithNamespaceDefaultIfNone d c = .ok c ∧
      (ValidNamespace c r).1 = true ∧ (ValidNamespace c r).2.Namespace ≠ "" := by
    intro c h2 h1
    refine ⟨h2, h1, ?_, ?_, ?_⟩
    · rw [withNamespaceDefaultIfNone_eq, if_neg]
      rintro (h | h)
      · rw [h2] at h; cases h
      · exact h1 h
    · rw [validNamespace_eq, if_pos hr]; exact h2
    · rw [validNamespace_eq, if_pos hr]; exact h1
  by_cases hc : (NamespaceFrom (.prim g)).2 = false ∨ (NamespaceFrom (.prim g)).1 = ""
  · refine ⟨.prim (.valueCtx g namespaceKey (Any.string d)), ?_, fin _ ?_ ?_⟩
    · rw [withNamespaceDefaultIfNone_eq, if_pos hc, withNamespace_prim]
    · rw [namespaceFrom_prim_valueCtx_namespaceKey]; rfl
    · rw [namespaceFrom_prim_valueCtx_namespaceKey]; exact hd
  · refine ⟨.prim g, ?_, fin _ ?_ ?_⟩
    · rw [withNamespaceDefaultIfNone_eq, if_neg hc]
    · cases h : (NamespaceFrom (.prim g)).2
      · exact absurd (Or.inl h) hc
      · rfl
    · exact fun h => hc (Or.inr h)

/-- C16 at the base context, the default namespace "default" and a resource
with an empty namespace. -/
theorem withNamespaceDefaultIfNone_bound_nonempty_witness :
    "default" ≠ "" ∧
    ∃ c, WithNamespaceDefaultIfNone "default" NewContext = .ok c ∧
      (NamespaceFrom c).2 = true ∧ (NamespaceFrom c).1 ≠ "" ∧
      WithNamespaceDefaultIfNone "default" c = .ok c ∧
      (ValidNamespace c (⟨"", ()⟩ : ObjectMeta Unit)).1 = true ∧
      (ValidNamespace c (⟨"", ()⟩ : ObjectMeta Unit)).2.Namespace ≠ "" :=
  ⟨by decide,
   withNamespaceDefaultIfNone_bound_nonempty "default" context.TODO
     (⟨"", ()⟩ : ObjectMeta Unit) (by decide) rfl⟩

/-- C17: `ValidNamespace` returning true does not make the resource's namespace
non-empty: on a context whose namespace is bound to the empty string and a
resource whose namespace is empty it returns true and the namespace is still
empty; and whenever it returns true, the resource's namespace after the call is
`Namespace(ctx)`. -/
theorem validNamespace_true_namespace {ρ : Type} (ctx : Context) (r : ObjectMeta ρ) :
    (NamespaceFrom ctx = ("", true) → r.Namespace = "" →
      (ValidNamespace ctx r).1 = true ∧ (ValidNamespace ctx r).2.Namespace = "") ∧
    ((ValidNamespace ctx r).1 = true → (ValidNamespace ctx r).2.Namespace = Namespace ctx) := by
  constructor
  · intro hc hr
    rw [validNamespace_eq, if_pos hr, hc]
    exact ⟨rfl, rfl⟩
  · rw [validNamespace_eq]
    by_cases hn : r.Namespace = ""
    · rw [if_pos hn]; intro _; rfl
    · rw [if_neg hn]
      intro h
      simp only [Bool.and_eq_true, decide_eq_true_eq] at h
      exact h.1.symm

/-- C17 at `WithNamespace(NewContext(), "")` and a resource with an empty
namespace: the call returns true and the namespace stays empty. -/
theorem validNamespace_true_namespace_witness :
    WithNamespace NewContext ""
        = .ok (.prim (.valueCtx .emptyCtx namespaceKey (Any.string ""))) ∧
      (ValidNamespace (.prim (.valueCtx .emptyCtx namespaceKey (Any.string "")))
        (⟨"", ()⟩ : ObjectMeta Unit)).1 = true ∧
      (ValidNamespace (.prim (.valueCtx .emptyCtx namespaceKey (Any.string "")))
        (⟨"", ()⟩ : ObjectMeta Unit)).2.Namespace = "" :=
  ⟨rfl,
   (validNamespace_true_namespace (.prim (.valueCtx .emptyCtx namespaceKey (Any.string "")))
      (⟨"", ()⟩ : ObjectMeta Unit)).1 (by decide) rfl⟩

end api
